import Mathlib

/-!
# Verification of the geohash query library

A shallow embedding of the library's two source files
(`geohash.utils.ts` and `geohash.service.ts`) together with proofs about
the embedded definitions.

JavaScript numbers are modelled as rationals (`ℚ`): every arithmetic
operation performed by the geohash codec (interval midpoints obtained by
halving, starting from the exact bounds ±90 / ±180) stays inside the
dyadic rationals representable exactly in IEEE doubles, so the rational
model computes exactly the values the source computes.  The trigonometric
primitives used by the distance function are not exactly representable;
they are abstracted as parameters (see `MathOps` below).
-/

namespace Geohash

/-- The running interval state of the codec: current latitude and longitude
bounds.  `decode_bbox` returns exactly this data (the source returns the
array `[minLat, minLon, maxLat, maxLon]`). -/
structure GState where
  minLat : ℚ
  maxLat : ℚ
  minLon : ℚ
  maxLon : ℚ
deriving DecidableEq, Repr

/-- Initial bounds: `maxLat = 90, minLat = -90, maxLon = 180, minLon = -180`. -/
def startState : GState := ⟨-90, 90, -180, 180⟩

/-- The base-32 geohash alphabet, `BASE32_CODES` in the source. -/
def BASE32_CODES : List Char := "0123456789bcdefghjkmnpqrstuvwxyz".toList

/-- The dictionary `BASE32_CODES_DICT` maps each alphabet character to its index; any other
character is absent (the JS object lookup yields `undefined`). -/
def BASE32_CODES_DICT (c : Char) : Option ℕ :=
  BASE32_CODES.findIdx? (fun x => x == c)

/-- One iteration of the `encode` while-loop: bisect the current longitude
(`isLon = true`, i.e. `bitsTotal` even) or latitude interval at its midpoint
and emit the bit. -/
def encStep (latitude longitude : ℚ) (isLon : Bool) (s : GState) : Bool × GState :=
  if isLon then
    let mid := (s.maxLon + s.minLon) / 2
    if longitude > mid then (true, { s with minLon := mid })
    else (false, { s with maxLon := mid })
  else
    let mid := (s.maxLat + s.minLat) / 2
    if latitude > mid then (true, { s with minLat := mid })
    else (false, { s with maxLat := mid })

/-- Bit value: `true ↦ 1, false ↦ 0`, the bit added to `hash_value`. -/
def b2n (b : Bool) : ℕ := if b then 1 else 0

/-- Five iterations of the `encode` loop (one emitted character):
`hash_value` is accumulated by `hash_value = (hash_value << 1) + bit`, and
the axis parity alternates on every bit, continuing across characters. -/
def encChar5 (latitude longitude : ℚ) (isLon : Bool) (s : GState) : ℕ × GState :=
  let r0 := encStep latitude longitude isLon s
  let r1 := encStep latitude longitude (!isLon) r0.2
  let r2 := encStep latitude longitude isLon r1.2
  let r3 := encStep latitude longitude (!isLon) r2.2
  let r4 := encStep latitude longitude isLon r3.2
  let hash_value := (((b2n r0.1 * 2 + b2n r1.1) * 2 + b2n r2.1) * 2 + b2n r3.1) * 2 + b2n r4.1
  (hash_value, r4.2)

/-- The `encode` while-loop, one character per call; also returns the final
interval state (which the source keeps in its mutable locals). -/
def encodeAux (latitude longitude : ℚ) : ℕ → Bool → GState → List Char × GState
  | 0, _, s => ([], s)
  | n + 1, isLon, s =>
    let c := encChar5 latitude longitude isLon s
    let rest := encodeAux latitude longitude n (!isLon) c.2
    (BASE32_CODES.getD c.1 '?' :: rest.1, rest.2)

/-- Source `encode(latitude, longitude, numberOfChars)` for numeric input: binary
interval bisection starting on the longitude axis, `numberOfChars`
characters of 5 bits each. -/
def encode (latitude longitude : ℚ) (numberOfChars : ℕ) : String :=
  String.mk (encodeAux latitude longitude numberOfChars true startState).1

/-- One bit extracted during decoding: JS computes
`(hashValue >> bits) & 1`, where an unknown character gives
`hashValue = undefined` and `undefined >> bits` evaluates to `0`. -/
def decBit (hashValue : Option ℕ) (bits : ℕ) : Bool :=
  match hashValue with
  | some v => if v / 2 ^ bits % 2 = 1 then true else false
  | none => false

/-- One iteration of the inner `decode_bbox` loop: narrow the current
longitude or latitude interval according to one bit. -/
def decStep (bit : Bool) (isLon : Bool) (s : GState) : GState :=
  if isLon then
    let mid := (s.maxLon + s.minLon) / 2
    if bit then { s with minLon := mid } else { s with maxLon := mid }
  else
    let mid := (s.maxLat + s.minLat) / 2
    if bit then { s with minLat := mid } else { s with maxLat := mid }

/-- The five bit-steps of one decoded character, most-significant bit first
(`bits = 4, 3, 2, 1, 0`), with alternating axis parity. -/
def decChar5 (hashValue : Option ℕ) (isLon : Bool) (s : GState) : GState :=
  let s0 := decStep (decBit hashValue 4) isLon s
  let s1 := decStep (decBit hashValue 3) (!isLon) s0
  let s2 := decStep (decBit hashValue 2) isLon s1
  let s3 := decStep (decBit hashValue 1) (!isLon) s2
  decStep (decBit hashValue 0) isLon s3

/-- The outer `decode_bbox` loop over the characters of the hash string;
each character is lowercased before the dictionary lookup. -/
def decodeBBoxAux : List Char → Bool → GState → GState
  | [], _, s => s
  | c :: cs, isLon, s =>
    decodeBBoxAux cs (!isLon) (decChar5 (BASE32_CODES_DICT c.toLower) isLon s)

/-- Source `decode_bbox(hash_string)`: the bounding box
`[minLat, minLon, maxLat, maxLon]` of a hash. -/
def decode_bbox (hash_string : String) : GState :=
  decodeBBoxAux hash_string.toList true startState

/-- The result of `decode`: midpoint of the final intervals and the
half-widths as error bounds. -/
structure DecodeResult where
  latitude : ℚ
  longitude : ℚ
  errLatitude : ℚ
  errLongitude : ℚ
deriving DecidableEq, Repr

/-- Source `decode(hashString)`: center of the bounding box plus error bounds. -/
def decode (hashString : String) : DecodeResult :=
  let bbox := decode_bbox hashString
  let lat := (bbox.minLat + bbox.maxLat) / 2
  let lon := (bbox.minLon + bbox.maxLon) / 2
  ⟨lat, lon, bbox.maxLat - lat, bbox.maxLon - lon⟩

/-- Source `neighbors(hash_string)`: decode, double the error bounds, offset the
center by the eight direction vectors (clockwise from north) and re-encode
at the input's length. -/
def neighbors (hash_string : String) : List String :=
  let hashstringLength := hash_string.length
  let lonlat := decode hash_string
  let lat := lonlat.latitude
  let lon := lonlat.longitude
  let latErr := lonlat.errLatitude * 2
  let lonErr := lonlat.errLongitude * 2
  let encodeNeighbor := fun (neighborLatDir neighborLonDir : ℚ) =>
    encode (lat + neighborLatDir * latErr) (lon + neighborLonDir * lonErr) hashstringLength
  [encodeNeighbor 1 0, encodeNeighbor 1 1, encodeNeighbor 0 1, encodeNeighbor (-1) 1,
    encodeNeighbor (-1) 0, encodeNeighbor (-1) (-1), encodeNeighbor 0 (-1), encodeNeighbor 1 (-1)]

/-- Source `setPrecision(km)`: the radius-to-hash-length step table. -/
def setPrecision (km : ℚ) : ℕ :=
  if km ≤ 0.00477 then 9
  else if km ≤ 0.0382 then 8
  else if km ≤ 0.153 then 7
  else if km ≤ 1.22 then 6
  else if km ≤ 4.89 then 5
  else if km ≤ 39.1 then 4
  else if km ≤ 156 then 3
  else if km ≤ 1250 then 2
  else 1

/-! ## Auto-precision mode of `encode` -/

/-- Table `SIGFIG_HASH_LENGTH`: desired significant figures (index) to minimum
hash length (value). -/
def SIGFIG_HASH_LENGTH : List ℕ := [0, 5, 7, 8, 11, 12, 13, 15, 16, 17, 18]

/-- Worker for `jsSplitDot`, accumulating the current segment reversed. -/
def splitDotAux : List Char → List Char → List (List Char)
  | [], acc => [acc.reverse]
  | c :: cs, acc =>
    if c = '.' then acc.reverse :: splitDotAux cs []
    else splitDotAux cs (c :: acc)

/-- JS `s.split(".")`. -/
def jsSplitDot (s : String) : List String :=
  (splitDotAux s.toList []).map String.mk

/-- Value of a digit string (used by `jsToNumber`). -/
def digitsVal (cs : List Char) : ℕ :=
  cs.foldl (fun a c => a * 10 + (c.toNat - 48)) 0

/-- JS `ToNumber` applied to a decimal coordinate string, modelled for
strings in plain decimal notation (optional leading minus, integer digits,
optional fraction).  Strings outside that form evaluate to `NaN` in JS and
to an unspecified stand-in value here; no theorem depends on those values
(the hash length, the subject of the auto-precision claims, is independent
of the coordinate values). -/
def jsToNumber (s : String) : ℚ :=
  let neg := s.startsWith "-"
  let body := if neg then s.drop 1 else s
  let sgn : ℚ := if neg then -1 else 1
  match jsSplitDot body with
  | [ip] => sgn * (digitsVal ip.toList : ℚ)
  | [ip, fp] => sgn * ((digitsVal ip.toList : ℚ) + (digitsVal fp.toList : ℚ) / 10 ^ fp.length)
  | _ => 0

/-- A coordinate argument under `ENCODE_AUTO`: a JS number or a string. -/
inductive JSNumeric where
  | num (q : ℚ) : JSNumeric
  | str (s : String) : JSNumeric
deriving DecidableEq, Repr

/-- The `numberOfChars === ENCODE_AUTO` branch of `encode`.
`latitude.split(".")[1]` is `undefined` for a string without a `.`, and
reading `.length` of it throws a TypeError.  `SIGFIG_HASH_LENGTH[n]` is
`undefined` for `n > 10`, and then the while condition
`chars.length < undefined` is false, i.e. the hash comes out empty. -/
def encodeAuto (latitude longitude : JSNumeric) : Except String String :=
  match latitude, longitude with
  | .num _, _ => .error "string notation required for auto precision."
  | _, .num _ => .error "string notation required for auto precision."
  | .str la, .str lo =>
    match (jsSplitDot la).get? 1, (jsSplitDot lo).get? 1 with
    | some decLat, some decLong =>
      let numberOfSigFigs := max decLat.length decLong.length
      match SIGFIG_HASH_LENGTH.get? numberOfSigFigs with
      | some numberOfChars => .ok (encode (jsToNumber la) (jsToNumber lo) numberOfChars)
      | none => .ok (encode (jsToNumber la) (jsToNumber lo) 0)
    | _, _ => .error "TypeError: cannot read length of undefined"

/-! ## Distance

`distance` composes field arithmetic with the `Math` primitives
`sin`, `cos`, `sqrt`, `atan2` and the constant `PI`.  Those are
transcendental, so they are abstracted as parameters over an arbitrary
linear ordered field; the theorems assume only the identities of the real
functions that the proofs need, and hold in particular for `K = ℝ` with the
genuine trigonometric functions. -/

/-- The JS `Math` primitives used by `distance`. -/
structure MathOps (K : Type) where
  pi : K
  sin : K → K
  cos : K → K
  sqrt : K → K
  atan2 : K → K → K

section Distance

variable {K : Type} [LinearOrderedField K] [FloorRing K]

/-- Truncation toward zero (the rounding JS `%` uses). -/
def jsTrunc (x : K) : K :=
  if x < 0 then -((⌊-x⌋ : ℤ) : K) else ((⌊x⌋ : ℤ) : K)

/-- The JS remainder `x % y`: sign follows the dividend. -/
def jsRem (x y : K) : K := x - y * jsTrunc (x / y)

/-- Constant `EARTH_RADIUS = 6371008.8` (meters). -/
def EARTH_RADIUS : ℚ := 6371008.8

/-- Source `degreesToRadians(degrees)`: reduce modulo 360, then scale by `π/180`. -/
def degreesToRadians (M : MathOps K) (degrees : K) : K :=
  let radians := jsRem degrees 360
  radians * M.pi / 180

/-- Source `radiansToKmLength(radians) = radians * (EARTH_RADIUS / 1000)`. -/
def radiansToKmLength (radians : K) : K :=
  radians * ((EARTH_RADIUS : K) / 1000)

/-- Source `flip([a, b]) = [b, a]`. -/
def flip (arr : K × K) : K × K := (arr.2, arr.1)

/-- Source `distance(fromLatLng, toLatLng)`: the haversine great-circle distance
in kilometers. -/
def distance (M : MathOps K) (fromLatLng toLatLng : K × K) : K :=
  let fromC := flip fromLatLng
  let toC := flip toLatLng
  let dLat := degreesToRadians M (toC.2 - fromC.2)
  let dLon := degreesToRadians M (toC.1 - fromC.1)
  let lat1 := degreesToRadians M fromC.2
  let lat2 := degreesToRadians M toC.2
  let a := M.sin (dLat / 2) ^ 2 + M.sin (dLon / 2) ^ 2 * M.cos lat1 * M.cos lat2
  radiansToKmLength (2 * M.atan2 (M.sqrt a) (M.sqrt (1 - a)))

end Distance

/-! ## The service (`geohash.service.ts`)

The Firestore query layer is the external collaborator; `performSearch` is
embedded from the point where the nine per-cell query results have been
flattened into one list (`reduced` in the source).  Documents are modelled
as JS values. -/

/-- A JavaScript value, as far as the service observes one: `undefined`,
a number, a string, a Firestore `GeoPoint` (an object with numeric
`latitude` / `longitude` properties), or a plain object (a key-value
map). -/
inductive JSVal where
  | undefined : JSVal
  | num (q : ℚ) : JSVal
  | str (s : String) : JSVal
  | geopoint (latitude longitude : ℚ) : JSVal
  | obj (fields : List (String × JSVal)) : JSVal

/-- Key lookup in an object's field map (JS object keys are unique, so
first match decides). -/
def objLookup (key : String) : List (String × JSVal) → JSVal
  | [] => .undefined
  | (k, v) :: rest => if k = key then v else objLookup key rest

/-- JS property read `v[key]` on a non-null value (never throws): object
lookup, a `GeoPoint`'s two properties, `undefined` on primitives. -/
def objGet (v : JSVal) (key : String) : JSVal :=
  match v with
  | .obj fields => objLookup key fields
  | .geopoint la lo =>
    if key = "latitude" then .num la
    else if key = "longitude" then .num lo
    else .undefined
  | _ => .undefined

/-- The loop guard `!obj || typeof obj !== "object"` of `getNestedKey`:
true exactly when the walk must stop and return the fallback (all our
non-object values are either falsy or of a non-object `typeof`). -/
def notObject : JSVal → Bool
  | .obj _ => false
  | .geopoint _ _ => false
  | _ => true

/-- The loop of `getNestedKey` over the dot-separated path segments,
followed by the final `if (obj === undefined) return fallbackVal`. -/
def getNestedKeyAux : JSVal → List String → JSVal → JSVal
  | ob, [], fallbackVal =>
    match ob with
    | .undefined => fallbackVal
    | v => v
  | ob, key :: rest, fallbackVal =>
    if notObject ob then fallbackVal
    else getNestedKeyAux (objGet ob key) rest fallbackVal

/-- Source `getNestedKey(obj, path, fallbackVal)`: walk `path.split(".")`. -/
def getNestedKey (ob : JSVal) (path : String) (fallbackVal : JSVal) : JSVal :=
  getNestedKeyAux ob (jsSplitDot path) fallbackVal

/-- Property access on a possibly-`undefined` value: JS throws a TypeError
when reading a property of `undefined`. -/
def jsPropAccess (v : JSVal) (key : String) : Except String JSVal :=
  match v with
  | .undefined => .error "TypeError: cannot read properties of undefined"
  | v => .ok (objGet v key)

/-- Source `getGeoPoint(val, fieldPath)`: resolve the field (through
`getNestedKey` when the path is dotted, no fallback argument passed) and
read its `geopoint` property. -/
def getGeoPoint (val : JSVal) (fieldPath : String) : Except String JSVal :=
  if fieldPath.toList.contains '.' then
    jsPropAccess (getNestedKey val fieldPath .undefined) "geopoint"
  else
    jsPropAccess (objGet val fieldPath) "geopoint"

/-- The destructuring `const { latitude, longitude } = gp` at the call
sites of `getGeoPoint`: throws on `undefined`, otherwise reads the two
properties. -/
def destructureLatLng (gp : JSVal) : Except String (JSVal × JSVal) :=
  match gp with
  | .undefined => .error "TypeError: cannot destructure properties of undefined"
  | v => .ok (objGet v "latitude", objGet v "longitude")

/-- One document as produced by `snapToData`: the Firestore document id
together with the document's field map (`{ id: v.id, ...v.data() }`;
document data is assumed not to carry a field named `id` of its own). -/
structure SDoc where
  id : String
  fields : List (String × JSVal)

/-- The merged record object the filter and map callbacks receive. -/
def SDoc.toVal (d : SDoc) : JSVal :=
  .obj (("id", .str d.id) :: d.fields)

/-- The scan of `Array.prototype.findIndex`, with the running index. -/
def findIndexIdAux (i : String) : List SDoc → ℕ → ℤ
  | [], _ => -1
  | v :: rest, k => if v.id = i then (k : ℤ) else findIndexIdAux i rest (k + 1)

/-- Source `arr.findIndex((v) => v.id === val.id)`: first index whose id matches,
`-1` when there is none. -/
def findIndexId (arr : List SDoc) (i : String) : ℤ :=
  findIndexIdAux i arr 0

/-- Comparison `d <= radiusBuffer` for a JS number that may be `NaN` (`none`):
every comparison with `NaN` is false. -/
def optLe (d : Option ℚ) (bound : ℚ) : Bool :=
  match d with
  | some q => if q ≤ bound then true else false
  | none => false

/-- The value of `distance([center.lat, center.lng], [latitude, longitude])`
where the two properties came out of destructuring: non-numeric operands
poison the arithmetic to `NaN` (`none`).  `dist` abstracts `distance`
composed with the concrete `Math` primitives. -/
def jsNumDist (dist : ℚ × ℚ → ℚ × ℚ → ℚ) (center : ℚ × ℚ) : JSVal × JSVal → Option ℚ
  | (.num la, .num lo) => some (dist center (la, lo))
  | _ => none

/-- The sort comparator
`(a, b) => a.geoMetadata.distance - b.geoMetadata.distance` as a boolean
"less or equal".  A `NaN` distance (`none`) never reaches the sort in the
source, because the distance filter has already rejected such records, so
its ordering is a free modelling choice; ordering `none` first keeps the
comparator total and transitive. -/
def distLe (a b : Option ℚ) : Bool :=
  match a, b with
  | none, _ => true
  | some _, none => false
  | some x, some y => if x ≤ y then true else false

/-- Resolution `getGeoPoint` followed by the destructuring, exactly what both the
filter and the map callback of `performSearch` perform on a candidate. -/
def recordCoords (field : String) (val : SDoc) : Except String (JSVal × JSVal) := do
  destructureLatLng (← getGeoPoint val.toVal field)

/-- Model of `Array.prototype.filter` with an index-aware callback that may throw:
the first exception aborts the whole traversal. -/
def jsFilterIdx {α : Type} (f : α → ℕ → Except String Bool) :
    List α → ℕ → Except String (List α)
  | [], _ => .ok []
  | x :: xs, i => do
    let keep ← f x i
    let rest ← jsFilterIdx f xs (i + 1)
    pure (if keep then x :: rest else rest)

/-- Model of `Array.prototype.map` with a callback that may throw: the first
exception aborts the traversal. -/
def jsMapExcept {α β : Type} (f : α → Except String β) :
    List α → Except String (List β)
  | [] => .ok []
  | x :: xs => do
    let y ← f x
    let rest ← jsMapExcept f xs
    pure (y :: rest)

/-- Source `performSearch` from the point where the nine awaited range queries
have been flattened into `reduced`: filter by buffered distance and
first-occurrence-of-id, annotate with the distance, sort ascending by it.
JS `Array.prototype.sort` is stable, and any stable sort yields the same
list for a consistent comparator, so it is modelled by insertion sort. -/
def performSearch (dist : ℚ × ℚ → ℚ × ℚ → ℚ) (center : ℚ × ℚ) (radius : ℚ)
    (field : String) (reduced : List SDoc) : Except String (List (SDoc × Option ℚ)) := do
  let radiusBuffer := radius * 1.01
  let filtered ← jsFilterIdx
    (fun val pos => do
      let ll ← recordCoords field val
      pure (optLe (jsNumDist dist center ll) radiusBuffer
        && (if findIndexId reduced val.id = (pos : ℤ) then true else false)))
    reduced 0
  let annotated ← jsMapExcept (fun val => do
    let ll ← recordCoords field val
    pure ((val, jsNumDist dist center ll))) filtered
  pure (List.insertionSort (fun a b => distLe a.2 b.2 = true) annotated)

/-! ## Statement-side definitions -/

/-- The coordinate pair lies within the state's current bounds. -/
def inBounds (lat lon : ℚ) (s : GState) : Prop :=
  s.minLat ≤ lat ∧ lat ≤ s.maxLat ∧ s.minLon ≤ lon ∧ lon ≤ s.maxLon

/-- Well-formed interval state: ordered bounds inside the initial globe
box. -/
def wfState (s : GState) : Prop :=
  -90 ≤ s.minLat ∧ s.minLat ≤ s.maxLat ∧ s.maxLat ≤ 90 ∧
    -180 ≤ s.minLon ∧ s.minLon ≤ s.maxLon ∧ s.maxLon ≤ 180

/-- The lowercase form of a string (character-wise `toLowerCase`, which on
the ASCII hash alphabet is exactly what the source applies). -/
def toLowerString (s : String) : String :=
  String.mk (s.toList.map Char.toLower)

/-- The geohash alphabet with its letters in both cases: the strings the
case-insensitivity claim ranges over. -/
def BASE32_MIXED : List Char :=
  "0123456789bcdefghjkmnpqrstuvwxyzBCDEFGHJKMNPQRSTUVWXYZ".toList

/-- Specification-side description (the claim's wording) of the records a
search retains: the flattened sequence filtered, in original order, to the
records that are the first occurrence of their identifier and whose true
distance to the center is within the buffered radius; `coords` is the
coordinate pair each record's field path resolves to. -/
def specRetained (dist : ℚ × ℚ → ℚ × ℚ → ℚ) (center : ℚ × ℚ) (radius : ℚ)
    (coords : SDoc → ℚ × ℚ) (reduced : List SDoc) : List SDoc :=
  ((reduced.enum).filter fun p =>
    (if dist center (coords p.2) ≤ radius * 1.01 then true else false)
      && (if findIndexId reduced p.2.id = (p.1 : ℤ) then true else false)).map Prod.snd

/-- A concrete instantiation of the abstract `Math` primitives over `ℚ`,
used to evaluate witnesses (it satisfies the identities the distance
theorems assume). -/
def ratOps : MathOps ℚ :=
  { pi := 0, sin := fun x => x, cos := fun _ => 1, sqrt := fun x => x,
    atan2 := fun y _ => y }

/-- Sample data for witnesses: three records whose geopoints lie at 0.5, 2
and 10 km from the origin under `sampleDist`. -/
def sampleDocs : List SDoc :=
  [⟨"a", [("loc", .obj [("geopoint", .geopoint 0.5 0)])]⟩,
    ⟨"b", [("loc", .obj [("geopoint", .geopoint 2 0)])]⟩,
    ⟨"c", [("loc", .obj [("geopoint", .geopoint 10 0)])]⟩]

/-- A concrete distance function for witnesses (latitude difference; the
haversine itself is transcendental and enters `performSearch` as a
parameter). -/
def sampleDist (c p : ℚ × ℚ) : ℚ := p.1 - c.1

/-- The coordinate pair each sample record resolves to. -/
def sampleCoords (d : SDoc) : ℚ × ℚ :=
  if d.id = "a" then (0.5, 0) else if d.id = "b" then (2, 0) else (10, 0)

/-! ## Generic helpers -/

theorem ok_bind {α β : Type} (a : α) (f : α → Except String β) :
    (Except.ok a : Except String α) >>= f = f a := rfl

theorem error_bind {α β : Type} (e : String) (f : α → Except String β) :
    (Except.error e : Except String α) >>= f = Except.error e := rfl

theorem pure_eq_ok {α : Type} (a : α) : (pure a : Except String α) = Except.ok a := rfl

/-! ## Codec lemmas -/

theorem decStep_encStep (la lo : ℚ) (p : Bool) (s : GState) :
    decStep (encStep la lo p s).1 p s = (encStep la lo p s).2 := by
  cases p <;> simp only [encStep, decStep] <;> split_ifs <;> simp_all

theorem b2n_le_one (b : Bool) : b2n b ≤ 1 := by cases b <;> simp [b2n]

theorem pack5_lt_32 (a b c d e : ℕ) (ha : a ≤ 1) (hb : b ≤ 1) (hc : c ≤ 1)
    (hd : d ≤ 1) (he : e ≤ 1) : (((a * 2 + b) * 2 + c) * 2 + d) * 2 + e < 32 := by
  omega

theorem encChar5_lt_32 (la lo : ℚ) (p : Bool) (s : GState) :
    (encChar5 la lo p s).1 < 32 := by
  dsimp only [encChar5]
  exact pack5_lt_32 _ _ _ _ _ (b2n_le_one _) (b2n_le_one _) (b2n_le_one _)
    (b2n_le_one _) (b2n_le_one _)

theorem dict_getD : ∀ v : ℕ, v < 32 →
    BASE32_CODES_DICT ((BASE32_CODES.getD v '?').toLower) = some v := by decide

theorem decBit_pack (b0 b1 b2 b3 b4 : Bool) :
    decBit (some ((((b2n b0 * 2 + b2n b1) * 2 + b2n b2) * 2 + b2n b3) * 2 + b2n b4)) 4 = b0 ∧
    decBit (some ((((b2n b0 * 2 + b2n b1) * 2 + b2n b2) * 2 + b2n b3) * 2 + b2n b4)) 3 = b1 ∧
    decBit (some ((((b2n b0 * 2 + b2n b1) * 2 + b2n b2) * 2 + b2n b3) * 2 + b2n b4)) 2 = b2 ∧
    decBit (some ((((b2n b0 * 2 + b2n b1) * 2 + b2n b2) * 2 + b2n b3) * 2 + b2n b4)) 1 = b3 ∧
    decBit (some ((((b2n b0 * 2 + b2n b1) * 2 + b2n b2) * 2 + b2n b3) * 2 + b2n b4)) 0 = b4 := by
  revert b0 b1 b2 b3 b4
  decide

theorem decChar5_encChar5 (la lo : ℚ) (p : Bool) (s : GState) :
    decChar5 (some (encChar5 la lo p s).1) p s = (encChar5 la lo p s).2 := by
  dsimp only [encChar5, decChar5]
  rw [(decBit_pack _ _ _ _ _).1, (decBit_pack _ _ _ _ _).2.1,
    (decBit_pack _ _ _ _ _).2.2.1, (decBit_pack _ _ _ _ _).2.2.2.1,
    (decBit_pack _ _ _ _ _).2.2.2.2]
  simp only [decStep_encStep]

theorem decodeBBoxAux_encodeAux (la lo : ℚ) :
    ∀ (n : ℕ) (p : Bool) (s : GState),
      decodeBBoxAux (encodeAux la lo n p s).1 p s = (encodeAux la lo n p s).2
  | 0, _, _ => rfl
  | n + 1, p, s => by
    dsimp only [encodeAux, decodeBBoxAux]
    rw [dict_getD _ (encChar5_lt_32 la lo p s), decChar5_encChar5]
    exact decodeBBoxAux_encodeAux la lo n (!p) _

theorem decode_bbox_encode (la lo : ℚ) (n : ℕ) :
    decode_bbox (encode la lo n) = (encodeAux la lo n true startState).2 :=
  decodeBBoxAux_encodeAux la lo n true startState

theorem encStep_inBounds (la lo : ℚ) (p : Bool) (s : GState) (h : inBounds la lo s) :
    inBounds la lo (encStep la lo p s).2 := by
  obtain ⟨h1, h2, h3, h4⟩ := h
  cases p <;> dsimp only [encStep] <;> split_ifs with hc <;>
    refine ⟨?_, ?_, ?_, ?_⟩ <;> dsimp only <;> first | assumption | linarith

theorem encChar5_inBounds (la lo : ℚ) (p : Bool) (s : GState) (h : inBounds la lo s) :
    inBounds la lo (encChar5 la lo p s).2 := by
  dsimp only [encChar5]
  exact encStep_inBounds _ _ _ _ (encStep_inBounds _ _ _ _ (encStep_inBounds _ _ _ _
    (encStep_inBounds _ _ _ _ (encStep_inBounds _ _ _ _ h))))

theorem encodeAux_inBounds (la lo : ℚ) :
    ∀ (n : ℕ) (p : Bool) (s : GState), inBounds la lo s →
      inBounds la lo (encodeAux la lo n p s).2
  | 0, _, _, h => h
  | n + 1, p, s, h => by
    dsimp only [encodeAux]
    exact encodeAux_inBounds la lo n (!p) _ (encChar5_inBounds la lo p s h)

theorem decStep_wf (b p : Bool) (s : GState) (h : wfState s) : wfState (decStep b p s) := by
  obtain ⟨h1, h2, h3, h4, h5, h6⟩ := h
  cases p <;> dsimp only [decStep] <;> split_ifs <;>
    refine ⟨?_, ?_, ?_, ?_, ?_, ?_⟩ <;> dsimp only <;> first | assumption | linarith

theorem decChar5_wf (v : Option ℕ) (p : Bool) (s : GState) (h : wfState s) :
    wfState (decChar5 v p s) := by
  dsimp only [decChar5]
  exact decStep_wf _ _ _ (decStep_wf _ _ _ (decStep_wf _ _ _ (decStep_wf _ _ _
    (decStep_wf _ _ _ h))))

theorem decodeBBoxAux_wf :
    ∀ (l : List Char) (p : Bool) (s : GState), wfState s → wfState (decodeBBoxAux l p s)
  | [], _, _, h => h
  | c :: cs, p, s, h => decodeBBoxAux_wf cs (!p) _ (decChar5_wf _ _ _ h)

theorem startState_wf : wfState startState := by
  refine ⟨?_, ?_, ?_, ?_, ?_, ?_⟩ <;> norm_num [startState]

theorem decode_bbox_wf (h : String) : wfState (decode_bbox h) :=
  decodeBBoxAux_wf _ _ _ startState_wf

theorem encodeAux_length (la lo : ℚ) :
    ∀ (n : ℕ) (p : Bool) (s : GState), (encodeAux la lo n p s).1.length = n
  | 0, _, _ => rfl
  | n + 1, p, s => by
    dsimp only [encodeAux]
    rw [List.length_cons, encodeAux_length la lo n (!p) _]

theorem encode_length (la lo : ℚ) (n : ℕ) : (encode la lo n).length = n :=
  encodeAux_length la lo n true startState

theorem decChar5_none (p : Bool) (s : GState) :
    decChar5 none p s = decChar5 (some 0) p s := rfl

theorem decodeBBoxAux_unknown :
    ∀ (l : List Char) (p : Bool) (s : GState),
      decodeBBoxAux
          (l.map (fun c => if (BASE32_CODES_DICT c.toLower).isSome then c else '0')) p s
        = decodeBBoxAux l p s
  | [], _, _ => rfl
  | c :: cs, p, s => by
    dsimp only [List.map, decodeBBoxAux]
    by_cases hc : (BASE32_CODES_DICT c.toLower).isSome
    · rw [if_pos hc]
      exact decodeBBoxAux_unknown cs (!p) _
    · rw [if_neg hc]
      rw [show BASE32_CODES_DICT (Char.toLower '0') = some 0 from by decide]
      rw [Option.not_isSome_iff_eq_none] at hc
      rw [hc, decChar5_none]
      exact decodeBBoxAux_unknown cs (!p) _

theorem toLower_idem_of_mixed (c : Char) (hc : c ∈ BASE32_MIXED) :
    Char.toLower (Char.toLower c) = Char.toLower c := by
  fin_cases hc <;> rfl

theorem decodeBBoxAux_toLower :
    ∀ (l : List Char), (∀ c ∈ l, c ∈ BASE32_MIXED) → ∀ (p : Bool) (s : GState),
      decodeBBoxAux (l.map Char.toLower) p s = decodeBBoxAux l p s
  | [], _, _, _ => rfl
  | c :: cs, hc, p, s => by
    dsimp only [List.map, decodeBBoxAux]
    rw [toLower_idem_of_mixed c (hc c (List.mem_cons_self c cs))]
    exact decodeBBoxAux_toLower cs (fun d hd => hc d (List.mem_cons_of_mem c hd)) (!p) _

/-! ## Claim C3 -/

/-- C3: for every latitude in [-90, 90], longitude in [-180, 180] and
length L in [1, 9], the point returned by `decode (encode lat lon L)` lies
within the bounding box returned by `decode_bbox` of that same hash, and
the box's center differs from (lat, lon) by at most the returned error
bounds. -/
theorem decode_encode_roundtrip (lat lon : ℚ) (L : ℕ)
    (hlat1 : -90 ≤ lat) (hlat2 : lat ≤ 90) (hlon1 : -180 ≤ lon) (hlon2 : lon ≤ 180)
    (hL1 : 1 ≤ L) (hL2 : L ≤ 9) :
    ((decode_bbox (encode lat lon L)).minLat ≤ (decode (encode lat lon L)).latitude ∧
      (decode (encode lat lon L)).latitude ≤ (decode_bbox (encode lat lon L)).maxLat ∧
      (decode_bbox (encode lat lon L)).minLon ≤ (decode (encode lat lon L)).longitude ∧
      (decode (encode lat lon L)).longitude ≤ (decode_bbox (encode lat lon L)).maxLon) ∧
    |(decode (encode lat lon L)).latitude - lat| ≤ (decode (encode lat lon L)).errLatitude ∧
    |(decode (encode lat lon L)).longitude - lon| ≤ (decode (encode lat lon L)).errLongitude := by
  have hin : inBounds lat lon (decode_bbox (encode lat lon L)) := by
    rw [decode_bbox_encode]
    exact encodeAux_inBounds lat lon L true startState ⟨hlat1, hlat2, hlon1, hlon2⟩
  obtain ⟨a1, a2, a3, a4⟩ := hin
  dsimp only [decode]
  refine ⟨⟨by linarith, by linarith, by linarith, by linarith⟩, ?_, ?_⟩ <;>
    rw [abs_le] <;> constructor <;> linarith

/-- Witness for C3 at lat = 1, lon = 2, L = 1. -/
theorem decode_encode_roundtrip_witness :
    ((-90 : ℚ) ≤ 1 ∧ (1 : ℚ) ≤ 90 ∧ (-180 : ℚ) ≤ 2 ∧ (2 : ℚ) ≤ 180 ∧
      (1 : ℕ) ≤ 1 ∧ (1 : ℕ) ≤ 9) ∧
    (((decode_bbox (encode 1 2 1)).minLat ≤ (decode (encode 1 2 1)).latitude ∧
      (decode (encode 1 2 1)).latitude ≤ (decode_bbox (encode 1 2 1)).maxLat ∧
      (decode_bbox (encode 1 2 1)).minLon ≤ (decode (encode 1 2 1)).longitude ∧
      (decode (encode 1 2 1)).longitude ≤ (decode_bbox (encode 1 2 1)).maxLon) ∧
    |(decode (encode 1 2 1)).latitude - 1| ≤ (decode (encode 1 2 1)).errLatitude ∧
    |(decode (encode 1 2 1)).longitude - 2| ≤ (decode (encode 1 2 1)).errLongitude) :=
  ⟨⟨by norm_num, by norm_num, by norm_num, by norm_num, le_refl 1, by norm_num⟩,
    decode_encode_roundtrip 1 2 1 (by norm_num) (by norm_num) (by norm_num) (by norm_num)
      (le_refl 1) (by norm_num)⟩

/-! ## Claim C8 -/

/-- C8: for every hash over the geohash alphabet, the bounding box has
ordered bounds inside the initial globe box; the empty hash decodes to the
full-globe box, and `decode ""` is the origin with errors ±90 / ±180. -/
theorem decode_bbox_invariants :
    (∀ h : String, (∀ c ∈ h.toList, c ∈ BASE32_CODES) →
      (-90 ≤ (decode_bbox h).minLat ∧ (decode_bbox h).minLat ≤ (decode_bbox h).maxLat ∧
        (decode_bbox h).maxLat ≤ 90 ∧ -180 ≤ (decode_bbox h).minLon ∧
        (decode_bbox h).minLon ≤ (decode_bbox h).maxLon ∧ (decode_bbox h).maxLon ≤ 180)) ∧
    decode_bbox "" = { minLat := -90, maxLat := 90, minLon := -180, maxLon := 180 } ∧
    decode "" = { latitude := 0, longitude := 0, errLatitude := 90, errLongitude := 180 } := by
  refine ⟨fun h _ => decode_bbox_wf h, rfl, ?_⟩
  norm_num [decode, decode_bbox, decodeBBoxAux, startState]

/-- Witness for C8 at the hash `"9"`. -/
theorem decode_bbox_invariants_witness :
    (∀ c ∈ "9".toList, c ∈ BASE32_CODES) ∧
    (-90 ≤ (decode_bbox "9").minLat ∧ (decode_bbox "9").minLat ≤ (decode_bbox "9").maxLat ∧
      (decode_bbox "9").maxLat ≤ 90 ∧ -180 ≤ (decode_bbox "9").minLon ∧
      (decode_bbox "9").minLon ≤ (decode_bbox "9").maxLon ∧ (decode_bbox "9").maxLon ≤ 180) :=
  ⟨by decide, decode_bbox_invariants.1 "9" (by decide)⟩

/-! ## Claim C6 -/

/-- C6: for every non-empty hash, `neighbors` returns exactly 8 hash
strings of the same length as the input, in the order N, NE, E, SE, S, SW,
W, NW, each obtained by re-encoding the decoded center offset by the
direction vector times twice the error bounds. -/
theorem neighbors_spec (h : String) (hne : h ≠ "") :
    neighbors h =
      [encode ((decode h).latitude + 1 * (2 * (decode h).errLatitude))
          ((decode h).longitude + 0 * (2 * (decode h).errLongitude)) h.length,
        encode ((decode h).latitude + 1 * (2 * (decode h).errLatitude))
          ((decode h).longitude + 1 * (2 * (decode h).errLongitude)) h.length,
        encode ((decode h).latitude + 0 * (2 * (decode h).errLatitude))
          ((decode h).longitude + 1 * (2 * (decode h).errLongitude)) h.length,
        encode ((decode h).latitude + (-1) * (2 * (decode h).errLatitude))
          ((decode h).longitude + 1 * (2 * (decode h).errLongitude)) h.length,
        encode ((decode h).latitude + (-1) * (2 * (decode h).errLatitude))
          ((decode h).longitude + 0 * (2 * (decode h).errLongitude)) h.length,
        encode ((decode h).latitude + (-1) * (2 * (decode h).errLatitude))
          ((decode h).longitude + (-1) * (2 * (decode h).errLongitude)) h.length,
        encode ((decode h).latitude + 0 * (2 * (decode h).errLatitude))
          ((decode h).longitude + (-1) * (2 * (decode h).errLongitude)) h.length,
        encode ((decode h).latitude + 1 * (2 * (decode h).errLatitude))
          ((decode h).longitude + (-1) * (2 * (decode h).errLongitude)) h.length] ∧
    (neighbors h).length = 8 ∧
    ∀ g ∈ neighbors h, g.length = h.length := by
  have harg : ∀ x y d : ℚ, x + d * (y * 2) = x + d * (2 * y) := by
    intro x y d
    ring
  refine ⟨?_, rfl, ?_⟩
  · dsimp only [neighbors]
    simp only [harg]
  · intro g hg
    dsimp only [neighbors] at hg
    simp only [List.mem_cons, List.not_mem_nil, or_false] at hg
    rcases hg with h1 | h1 | h1 | h1 | h1 | h1 | h1 | h1 <;>
      (subst h1; exact encode_length _ _ _)

/-- Witness for C6 at the hash `"s"`. -/
theorem neighbors_spec_witness :
    ("s" : String) ≠ "" ∧
    ((neighbors "s").length = 8 ∧ ∀ g ∈ neighbors "s", g.length = ("s" : String).length) :=
  ⟨by decide, ⟨(neighbors_spec "s" (by decide)).2.1, (neighbors_spec "s" (by decide)).2.2⟩⟩

/-! ## Claim C4 -/

theorem setPrecision_bounds (km : ℚ) : 1 ≤ setPrecision km ∧ setPrecision km ≤ 9 := by
  unfold setPrecision
  split_ifs <;> norm_num

set_option maxHeartbeats 2000000 in
theorem setPrecision_bands (km : ℚ) :
    (setPrecision km = 9 ↔ km ≤ 0.00477) ∧
    (setPrecision km = 8 ↔ 0.00477 < km ∧ km ≤ 0.0382) ∧
    (setPrecision km = 7 ↔ 0.0382 < km ∧ km ≤ 0.153) ∧
    (setPrecision km = 6 ↔ 0.153 < km ∧ km ≤ 1.22) ∧
    (setPrecision km = 5 ↔ 1.22 < km ∧ km ≤ 4.89) ∧
    (setPrecision km = 4 ↔ 4.89 < km ∧ km ≤ 39.1) ∧
    (setPrecision km = 3 ↔ 39.1 < km ∧ km ≤ 156) ∧
    (setPrecision km = 2 ↔ 156 < km ∧ km ≤ 1250) ∧
    (setPrecision km = 1 ↔ 1250 < km) := by
  unfold setPrecision
  split_ifs with h1 h2 h3 h4 h5 h6 h7 h8 <;>
    push_neg at * <;>
    refine ⟨?_, ?_, ?_, ?_, ?_, ?_, ?_, ?_, ?_⟩ <;>
    constructor <;>
    intro hx <;>
    first
      | rfl
      | linarith
      | exact ⟨by linarith, by linarith⟩
      | (exfalso; rcases hx with ⟨hx1, hx2⟩; linarith)
      | (exfalso; linarith)
      | (norm_num at hx)

set_option maxHeartbeats 2000000 in
theorem setPrecision_antitone (r1 r2 : ℚ) (h12 : r1 ≤ r2) :
    setPrecision r2 ≤ setPrecision r1 := by
  unfold setPrecision
  split_ifs <;> first | (exfalso; linarith) | norm_num

/-- C4: `setPrecision` follows the step table, always returns a length in
[1, 9], is non-increasing in the radius, and maps 0.004 to 9 and 2000
to 1. -/
theorem setPrecision_spec :
    (∀ km : ℚ, 1 ≤ setPrecision km ∧ setPrecision km ≤ 9) ∧
    (∀ km : ℚ,
      (setPrecision km = 9 ↔ km ≤ 0.00477) ∧
      (setPrecision km = 8 ↔ 0.00477 < km ∧ km ≤ 0.0382) ∧
      (setPrecision km = 7 ↔ 0.0382 < km ∧ km ≤ 0.153) ∧
      (setPrecision km = 6 ↔ 0.153 < km ∧ km ≤ 1.22) ∧
      (setPrecision km = 5 ↔ 1.22 < km ∧ km ≤ 4.89) ∧
      (setPrecision km = 4 ↔ 4.89 < km ∧ km ≤ 39.1) ∧
      (setPrecision km = 3 ↔ 39.1 < km ∧ km ≤ 156) ∧
      (setPrecision km = 2 ↔ 156 < km ∧ km ≤ 1250) ∧
      (setPrecision km = 1 ↔ 1250 < km)) ∧
    (∀ r1 r2 : ℚ, r1 ≤ r2 → setPrecision r2 ≤ setPrecision r1) ∧
    setPrecision 0.004 = 9 ∧ setPrecision 2000 = 1 := by
  refine ⟨setPrecision_bounds, setPrecision_bands, setPrecision_antitone, ?_, ?_⟩ <;>
    norm_num [setPrecision]

/-- Witness for C4: monotonicity applied at radii 1 ≤ 2. -/
theorem setPrecision_spec_witness :
    ((1 : ℚ) ≤ 2) ∧ setPrecision 2 ≤ setPrecision 1 ∧
      (1 ≤ setPrecision 5 ∧ setPrecision 5 ≤ 9) :=
  ⟨by norm_num, setPrecision_spec.2.2.1 1 2 (by norm_num), setPrecision_spec.1 5⟩

/-! ## Claim C1 (corrected) -/

/-- C1 (counterexample): `!` lies outside the geohash alphabet, yet
`decode_bbox "!"` returns a bounding box (the cell of the character `0`)
instead of failing with an error. -/
theorem decode_bbox_unknown_char_no_failure :
    BASE32_CODES_DICT '!' = none ∧
    decode_bbox "!" = { minLat := -90, maxLat := -45, minLon := -180, maxLon := -135 } ∧
    decode_bbox "!" = decode_bbox "0" := by
  refine ⟨by decide, ?_, ?_⟩ <;>
    norm_num [decode_bbox, decodeBBoxAux, decChar5, decStep, decBit, startState,
      show BASE32_CODES_DICT (Char.toLower '!') = none from by decide,
      show BASE32_CODES_DICT (Char.toLower '0') = some 0 from by decide]

/-- C1 (amended): decoding never fails on unknown characters; every
character outside the alphabet is treated as if its five bits were zero,
i.e. exactly like the alphabet character `0`, and a bounding box is
returned. -/
theorem decode_bbox_unknown_as_zero (s : String) :
    decode_bbox (String.mk (s.toList.map
      (fun c => if (BASE32_CODES_DICT c.toLower).isSome then c else '0'))) = decode_bbox s :=
  decodeBBoxAux_unknown s.toList true startState

/-! ## Claim C10 -/

/-- C10: decoding is case-insensitive — for every hash over the geohash
alphabet with letters in either case, `decode_bbox` of the hash equals
`decode_bbox` of its lowercase form. -/
theorem decode_bbox_case_insensitive (h : String)
    (halpha : ∀ c ∈ h.toList, c ∈ BASE32_MIXED) :
    decode_bbox h = decode_bbox (toLowerString h) :=
  (decodeBBoxAux_toLower h.toList halpha true startState).symm

/-- Witness for C10 at the mixed-case hash `"eZs"`. -/
theorem decode_bbox_case_insensitive_witness :
    (∀ c ∈ "eZs".toList, c ∈ BASE32_MIXED) ∧
    decode_bbox "eZs" = decode_bbox (toLowerString "eZs") :=
  ⟨by decide, decode_bbox_case_insensitive "eZs" (by decide)⟩

/-! ## Distance lemmas and claim C7 -/

section DistanceLemmas

variable {K : Type} [LinearOrderedField K] [FloorRing K]

theorem jsTrunc_zero : jsTrunc (0 : K) = 0 := by
  simp [jsTrunc]

theorem jsTrunc_neg (x : K) : jsTrunc (-x) = -jsTrunc x := by
  unfold jsTrunc
  rcases lt_trichotomy x 0 with h | h | h
  · rw [if_neg (by linarith), if_pos h, neg_neg]
  · subst h
    simp
  · rw [if_pos (by linarith), if_neg (by linarith), neg_neg]

theorem jsRem_neg (x y : K) : jsRem (-x) y = -jsRem x y := by
  unfold jsRem
  rw [neg_div, jsTrunc_neg]
  ring

theorem jsRem_zero (y : K) : jsRem 0 y = 0 := by
  unfold jsRem
  rw [zero_div, jsTrunc_zero]
  ring

theorem degreesToRadians_neg (M : MathOps K) (x : K) :
    degreesToRadians M (-x) = -degreesToRadians M x := by
  unfold degreesToRadians
  rw [jsRem_neg]
  ring

theorem degreesToRadians_zero (M : MathOps K) : degreesToRadians M 0 = 0 := by
  unfold degreesToRadians
  rw [jsRem_zero]
  ring

end DistanceLemmas

/-- C7: `distance` is the haversine great-circle distance with mean Earth
radius 6371.0088 km; it is symmetric in its two points, and the distance
from a point to itself is 0.  The `Math` primitives are abstract; the
hypotheses are identities of the real functions (`sin` is odd,
`√0 = 0`, `√1 = 1`, `atan2 0 1 = 0`). -/
theorem distance_spec {K : Type} [LinearOrderedField K] [FloorRing K] (M : MathOps K)
    (hsin : ∀ x : K, M.sin (-x) = -M.sin x)
    (hsqrt0 : M.sqrt 0 = 0) (hsqrt1 : M.sqrt 1 = 1) (hatan : M.atan2 0 1 = 0) :
    (∀ a b : K × K, distance M a b = distance M b a) ∧
    (∀ a : K × K, distance M a a = 0) ∧
    EARTH_RADIUS / 1000 = (6371.0088 : ℚ) := by
  have hsq : ∀ x : K, M.sin (-x / 2) ^ 2 = M.sin (x / 2) ^ 2 := by
    intro x
    rw [neg_div, hsin, neg_sq]
  have hsin0 : M.sin 0 = 0 := by
    have h := hsin 0
    rw [neg_zero] at h
    linarith
  refine ⟨?_, ?_, by norm_num [EARTH_RADIUS]⟩
  · rintro ⟨a1, a2⟩ ⟨b1, b2⟩
    dsimp only [distance, flip]
    have e1 : degreesToRadians M (a1 - b1) = -degreesToRadians M (b1 - a1) := by
      rw [show a1 - b1 = -(b1 - a1) from by ring, degreesToRadians_neg]
    have e2 : degreesToRadians M (a2 - b2) = -degreesToRadians M (b2 - a2) := by
      rw [show a2 - b2 = -(b2 - a2) from by ring, degreesToRadians_neg]
    rw [e1, e2, hsq, hsq]
    ring_nf
  · rintro ⟨a1, a2⟩
    dsimp only [distance, flip]
    rw [sub_self, sub_self, degreesToRadians_zero, zero_div, hsin0]
    rw [show (0 : K) ^ 2 + 0 ^ 2 * M.cos (degreesToRadians M a1) * M.cos (degreesToRadians M a1)
        = 0 from by ring]
    rw [show (1 : K) - 0 = 1 from by ring, hsqrt0, hsqrt1, hatan]
    unfold radiansToKmLength
    ring

/-- Witness for C7: the hypotheses discharged at the concrete rational
operations `ratOps`, and the conclusion at sample points. -/
theorem distance_spec_witness :
    distance ratOps (3, 4) (5, 6) = distance ratOps (5, 6) (3, 4) ∧
    distance ratOps (7, 8) (7, 8) = 0 ∧ EARTH_RADIUS / 1000 = (6371.0088 : ℚ) :=
  ⟨(distance_spec ratOps (fun _ => rfl) rfl rfl rfl).1 (3, 4) (5, 6),
    (distance_spec ratOps (fun _ => rfl) rfl rfl rfl).2.1 (7, 8),
    (distance_spec ratOps (fun _ => rfl) rfl rfl rfl).2.2⟩

/-! ## Service lemmas -/

theorem performSearch_eq (dist : ℚ × ℚ → ℚ × ℚ → ℚ) (center : ℚ × ℚ) (radius : ℚ)
    (field : String) (reduced : List SDoc) :
    performSearch dist center radius field reduced =
      (do
        let filtered ← jsFilterIdx
          (fun val pos => do
            let ll ← recordCoords field val
            pure (optLe (jsNumDist dist center ll) (radius * 1.01)
              && (if findIndexId reduced val.id = (pos : ℤ) then true else false)))
          reduced 0
        let annotated ← jsMapExcept (fun val => do
          let ll ← recordCoords field val
          pure ((val, jsNumDist dist center ll))) filtered
        pure (List.insertionSort (fun a b => distLe a.2 b.2 = true) annotated)) := rfl

theorem jsFilterIdx_error {α : Type} (cb : α → ℕ → Except String Bool) :
    ∀ (l : List α) (i : ℕ) (d : α), d ∈ l → (∀ j, ∃ e, cb d j = .error e) →
      ∃ e, jsFilterIdx cb l i = .error e
  | [], _, d, hd, _ => absurd hd (List.not_mem_nil d)
  | x :: xs, i, d, hd, hcb => by
    rcases List.mem_cons.mp hd with h | h
    · subst h
      obtain ⟨e, he⟩ := hcb i
      refine ⟨e, ?_⟩
      dsimp only [jsFilterIdx]
      rw [he, error_bind]
    · cases hcx : cb x i with
      | error e =>
        refine ⟨e, ?_⟩
        dsimp only [jsFilterIdx]
        rw [hcx, error_bind]
      | ok k =>
        obtain ⟨e, he⟩ := jsFilterIdx_error cb xs (i + 1) d h hcb
        refine ⟨e, ?_⟩
        dsimp only [jsFilterIdx]
        rw [hcx, ok_bind, he, error_bind]

theorem jsFilterIdx_ok {α : Type} (cb : α → ℕ → Except String Bool) (keep : α → ℕ → Bool) :
    ∀ (l : List α) (i : ℕ), (∀ d ∈ l, ∀ j, cb d j = .ok (keep d j)) →
      jsFilterIdx cb l i = .ok (((l.enumFrom i).filter fun p => keep p.2 p.1).map Prod.snd)
  | [], _, _ => rfl
  | x :: xs, i, hcb => by
    dsimp only [jsFilterIdx, List.enumFrom]
    rw [hcb x (List.mem_cons_self x xs) i, ok_bind,
      jsFilterIdx_ok cb keep xs (i + 1) (fun d hd j => hcb d (List.mem_cons_of_mem x hd) j),
      ok_bind, pure_eq_ok, List.filter_cons]
    cases hk : keep x i <;> simp [hk]

theorem jsMapExcept_ok {α β : Type} (f : α → Except String β) (g : α → β) :
    ∀ l : List α, (∀ d ∈ l, f d = .ok (g d)) → jsMapExcept f l = .ok (l.map g)
  | [], _ => rfl
  | x :: xs, hf => by
    dsimp only [jsMapExcept]
    rw [hf x (List.mem_cons_self x xs), ok_bind,
      jsMapExcept_ok f g xs (fun d hd => hf d (List.mem_cons_of_mem x hd)),
      ok_bind, pure_eq_ok]
    rfl

theorem distLe_some_some (x y : ℚ) : distLe (some x) (some y) = true ↔ x ≤ y := by
  dsimp only [distLe]
  split_ifs with h <;> simp [h]

theorem distLe_total (a b : Option ℚ) : distLe a b = true ∨ distLe b a = true := by
  cases a with
  | none => exact Or.inl rfl
  | some x =>
    cases b with
    | none => exact Or.inr rfl
    | some y =>
      rcases le_total x y with h | h
      · exact Or.inl ((distLe_some_some x y).mpr h)
      · exact Or.inr ((distLe_some_some y x).mpr h)

theorem distLe_trans (a b c : Option ℚ) (h1 : distLe a b = true) (h2 : distLe b c = true) :
    distLe a c = true := by
  cases a with
  | none => rfl
  | some x =>
    cases c with
    | none =>
      cases b with
      | none => exact absurd h1 (by simp [distLe])
      | some y => exact absurd h2 (by simp [distLe])
    | some z =>
      cases b with
      | none => exact absurd h1 (by simp [distLe])
      | some y =>
        exact (distLe_some_some x z).mpr
          (le_trans ((distLe_some_some x y).mp h1) ((distLe_some_some y z).mp h2))

/-! ## Claim C2 (corrected) -/

/-- C2 (counterexample): a candidate record without the configured field is
not silently excluded — the whole search throws a TypeError (the claim
predicts the empty result list). -/
theorem performSearch_missing_field_throws :
    performSearch (fun _ _ => 0) (0, 0) 1 "loc" [⟨"a", []⟩] =
      .error "TypeError: cannot read properties of undefined" := by
  simp [performSearch, jsFilterIdx, jsMapExcept, recordCoords, getGeoPoint, jsPropAccess,
    objGet, objLookup, destructureLatLng, SDoc.toVal, optLe, jsNumDist, distLe, findIndexId,
    findIndexIdAux, ok_bind, error_bind, pure_eq_ok]

/-- C2 (amended): a candidate record on which the configured field path
does not resolve makes the whole search fail with an error (a TypeError in
JS); such records are not silently excluded. -/
theorem performSearch_error_on_unresolved (dist : ℚ × ℚ → ℚ × ℚ → ℚ) (center : ℚ × ℚ)
    (radius : ℚ) (field : String) (reduced : List SDoc)
    (hbad : ∃ d ∈ reduced, ∃ e, recordCoords field d = .error e) :
    ∃ e, performSearch dist center radius field reduced = .error e := by
  obtain ⟨d, hd, e0, he0⟩ := hbad
  obtain ⟨e, he⟩ := jsFilterIdx_error
    (fun val pos => do
      let ll ← recordCoords field val
      pure (optLe (jsNumDist dist center ll) (radius * 1.01)
        && (if findIndexId reduced val.id = (pos : ℤ) then true else false)))
    reduced 0 d hd
    (fun _ => ⟨e0, by dsimp only; rw [he0, error_bind]⟩)
  refine ⟨e, ?_⟩
  rw [performSearch_eq, he, error_bind]

/-- Witness for the amended C2 at a one-record collection lacking the
field. -/
theorem performSearch_error_on_unresolved_witness :
    (∃ d ∈ [(⟨"a", []⟩ : SDoc)], ∃ e, recordCoords "loc" d = .error e) ∧
    (∃ e, performSearch (fun _ _ => 0) (0, 0) 1 "loc" [⟨"a", []⟩] = .error e) :=
  ⟨⟨⟨"a", []⟩, List.mem_cons_self _ _,
      "TypeError: cannot read properties of undefined", rfl⟩,
    performSearch_error_on_unresolved _ _ _ _ _
      ⟨⟨"a", []⟩, List.mem_cons_self _ _,
        "TypeError: cannot read properties of undefined", rfl⟩⟩

/-! ## Claim C9 (corrected) -/

theorem SIGFIG_get?_le_ten : ∀ n : ℕ, n ≤ 10 →
    SIGFIG_HASH_LENGTH.get? n = some (SIGFIG_HASH_LENGTH.getD n 0) := by decide

/-- C9 (counterexample): with both coordinates given as strings without a
decimal point (for which the claim's table would give
`SIGFIG_HASH_LENGTH[0] = 0`, i.e. the empty hash), auto-precision `encode`
throws a TypeError instead. -/
theorem encodeAuto_dotless_throws :
    encodeAuto (.str "12") (.str "12") =
      .error "TypeError: cannot read length of undefined" := rfl

/-- C9 (amended): in auto-precision mode, `encode` fails whenever either
coordinate is a number; when both are strings containing a decimal point,
with at most 10 decimal digits, the hash length is the table entry at the
maximum decimal-digit count; strings without a decimal point also make it
fail. -/
theorem encodeAuto_spec :
    (∀ (q : ℚ) (lo : JSNumeric),
      encodeAuto (.num q) lo = .error "string notation required for auto precision.") ∧
    (∀ (la : JSNumeric) (q : ℚ),
      encodeAuto la (.num q) = .error "string notation required for auto precision.") ∧
    (∀ (sla slo fracLat fracLong : String),
      (jsSplitDot sla).get? 1 = some fracLat →
      (jsSplitDot slo).get? 1 = some fracLong →
      max fracLat.length fracLong.length ≤ 10 →
      ∃ g, encodeAuto (.str sla) (.str slo) = .ok g ∧
        g.length = SIGFIG_HASH_LENGTH.getD (max fracLat.length fracLong.length) 0) := by
  refine ⟨fun q lo => ?_, fun la q => ?_, ?_⟩
  · cases lo <;> rfl
  · cases la <;> rfl
  · intro sla slo fracLat fracLong h1 h2 h3
    refine ⟨encode (jsToNumber sla) (jsToNumber slo)
        (SIGFIG_HASH_LENGTH.getD (max fracLat.length fracLong.length) 0),
      ?_, encode_length _ _ _⟩
    simp only [encodeAuto]
    rw [h1, h2]
    dsimp only
    rw [SIGFIG_get?_le_ten _ h3]

/-- Witness for the amended C9 at the strings "3.14" and "2.5". -/
theorem encodeAuto_spec_witness :
    ((jsSplitDot "3.14").get? 1 = some "14" ∧ (jsSplitDot "2.5").get? 1 = some "5" ∧
      max ("14" : String).length ("5" : String).length ≤ 10) ∧
    (∃ g, encodeAuto (.str "3.14") (.str "2.5") = .ok g ∧
      g.length = SIGFIG_HASH_LENGTH.getD (max ("14" : String).length ("5" : String).length) 0) :=
  ⟨⟨by decide, by decide, by decide⟩,
    encodeAuto_spec.2.2 "3.14" "2.5" "14" "5" (by decide) (by decide) (by decide)⟩

/-! ## Claim C5 -/

/-- C5: when every candidate record's field path resolves to a geopoint
(`coords` names the coordinates), `performSearch` succeeds; its result is,
as a multiset, exactly the records that are the first occurrence of their
identifier in the flattened sequence and whose true distance to the center
is at most radius × 1.01 (`specRetained`, in original order); every result
carries its computed distance; the list is sorted ascending by that
distance; and records with equal distances keep their original relative
order. -/
theorem performSearch_spec (dist : ℚ × ℚ → ℚ × ℚ → ℚ) (center : ℚ × ℚ) (radius : ℚ)
    (field : String) (coords : SDoc → ℚ × ℚ) (reduced : List SDoc)
    (hres : ∀ d ∈ reduced,
      recordCoords field d = .ok (.num (coords d).1, .num (coords d).2)) :
    ∃ out, performSearch dist center radius field reduced = .ok out ∧
      (out.map Prod.fst).Perm (specRetained dist center radius coords reduced) ∧
      (∀ p ∈ out, p.2 = some (dist center (coords p.1))) ∧
      out.Pairwise (fun a b => dist center (coords a.1) ≤ dist center (coords b.1)) ∧
      (∀ a b : SDoc × Option ℚ,
        List.Sublist [a, b] ((specRetained dist center radius coords reduced).map
          (fun d => (d, some (dist center (coords d))))) →
        dist center (coords a.1) = dist center (coords b.1) →
        List.Sublist [a, b] out) := by
  have hcb : ∀ d ∈ reduced, ∀ j,
      (fun (val : SDoc) (pos : ℕ) => do
        let ll ← recordCoords field val
        pure (optLe (jsNumDist dist center ll) (radius * 1.01)
          && (if findIndexId reduced val.id = (pos : ℤ) then true else false))) d j
      = .ok ((if dist center (coords d) ≤ radius * 1.01 then true else false)
          && (if findIndexId reduced d.id = (j : ℤ) then true else false)) := by
    intro d hd j
    dsimp only
    rw [hres d hd, ok_bind]
    dsimp only [jsNumDist, optLe]
    rw [Prod.mk.eta, pure_eq_ok]
  have hfil := jsFilterIdx_ok _
    (fun d j => (if dist center (coords d) ≤ radius * 1.01 then true else false)
      && (if findIndexId reduced d.id = (j : ℤ) then true else false)) reduced 0 hcb
  have hretained : specRetained dist center radius coords reduced
      = ((reduced.enumFrom 0).filter fun p =>
          (if dist center (coords p.2) ≤ radius * 1.01 then true else false)
            && (if findIndexId reduced p.2.id = (p.1 : ℤ) then true else false)).map
          Prod.snd := rfl
  have hsubset : ∀ d ∈ specRetained dist center radius coords reduced, d ∈ reduced := by
    intro d hd
    rw [hretained] at hd
    have hsl1 : List.Sublist
        ((reduced.enumFrom 0).filter fun p =>
          (if dist center (coords p.2) ≤ radius * 1.01 then true else false)
            && (if findIndexId reduced p.2.id = (p.1 : ℤ) then true else false))
        (reduced.enumFrom 0) := List.filter_sublist _
    have hsl := hsl1.map Prod.snd
    rw [List.enumFrom_map_snd] at hsl
    exact hsl.subset hd
  have hmap : jsMapExcept (fun val => do
      let ll ← recordCoords field val
      pure ((val, jsNumDist dist center ll)))
      (specRetained dist center radius coords reduced)
      = .ok ((specRetained dist center radius coords reduced).map
          fun d => (d, some (dist center (coords d)))) := by
    apply jsMapExcept_ok
    intro d hd
    dsimp only
    rw [hres d (hsubset d hd), ok_bind]
    dsimp only [jsNumDist]
    rw [Prod.mk.eta, pure_eq_ok]
  refine ⟨List.insertionSort (fun a b => distLe a.2 b.2 = true)
      ((specRetained dist center radius coords reduced).map
        fun d => (d, some (dist center (coords d)))), ?_, ?_, ?_, ?_, ?_⟩
  · rw [performSearch_eq, hfil, ok_bind, ← hretained, hmap, ok_bind, pure_eq_ok]
  · have hperm := List.perm_insertionSort (fun a b : SDoc × Option ℚ => distLe a.2 b.2 = true)
      ((specRetained dist center radius coords reduced).map
        fun d => (d, some (dist center (coords d))))
    have h2 : (Prod.fst ∘ fun d : SDoc => (d, some (dist center (coords d)))) = id := rfl
    simpa [List.map_map, h2] using hperm.map Prod.fst
  · intro p hp
    rw [List.mem_insertionSort] at hp
    obtain ⟨d, hd, rfl⟩ := List.mem_map.mp hp
    rfl
  · haveI i1 : IsTotal (SDoc × Option ℚ) (fun a b => distLe a.2 b.2 = true) :=
      ⟨fun a b => distLe_total a.2 b.2⟩
    haveI i2 : IsTrans (SDoc × Option ℚ) (fun a b => distLe a.2 b.2 = true) :=
      ⟨fun a b c => distLe_trans a.2 b.2 c.2⟩
    have hsorted := List.sorted_insertionSort
      (fun a b : SDoc × Option ℚ => distLe a.2 b.2 = true)
      ((specRetained dist center radius coords reduced).map
        fun d => (d, some (dist center (coords d))))
    refine List.Pairwise.imp_of_mem ?_ hsorted
    intro a b ha hb hab
    rw [List.mem_insertionSort] at ha hb
    obtain ⟨da, hda, rfl⟩ := List.mem_map.mp ha
    obtain ⟨db, hdb, rfl⟩ := List.mem_map.mp hb
    exact (distLe_some_some _ _).mp hab
  · intro a b hsub htie
    have ha : a ∈ (specRetained dist center radius coords reduced).map
        (fun d => (d, some (dist center (coords d)))) :=
      hsub.subset (List.mem_cons_self a [b])
    have hb : b ∈ (specRetained dist center radius coords reduced).map
        (fun d => (d, some (dist center (coords d)))) :=
      hsub.subset (List.mem_cons_of_mem a (List.mem_cons_self b []))
    obtain ⟨da, hda, ha2⟩ := List.mem_map.mp ha
    obtain ⟨db, hdb, hb2⟩ := List.mem_map.mp hb
    have hab : distLe a.2 b.2 = true := by
      rw [← ha2, ← hb2]
      dsimp only
      rw [← ha2] at htie
      rw [← hb2] at htie
      dsimp only at htie
      exact (distLe_some_some _ _).mpr (le_of_eq htie)
    exact List.pair_sublist_insertionSort hab hsub

/-- Witness for C5: the 0.5 km / 2 km / 10 km scenario with radius 3 — the
hypothesis discharged concretely, the theorem applied, and the exact
result list (0.5 km record, then 2 km record) computed. -/
theorem performSearch_spec_witness :
    (∀ d ∈ sampleDocs,
      recordCoords "loc" d = .ok (.num (sampleCoords d).1, .num (sampleCoords d).2)) ∧
    (∃ out, performSearch sampleDist (0, 0) 3 "loc" sampleDocs = .ok out ∧
      (out.map Prod.fst).Perm (specRetained sampleDist (0, 0) 3 sampleCoords sampleDocs) ∧
      (∀ p ∈ out, p.2 = some (sampleDist (0, 0) (sampleCoords p.1))) ∧
      out.Pairwise (fun a b =>
        sampleDist (0, 0) (sampleCoords a.1) ≤ sampleDist (0, 0) (sampleCoords b.1)) ∧
      (∀ a b : SDoc × Option ℚ,
        List.Sublist [a, b] ((specRetained sampleDist (0, 0) 3 sampleCoords sampleDocs).map
          (fun d => (d, some (sampleDist (0, 0) (sampleCoords d))))) →
        sampleDist (0, 0) (sampleCoords a.1) = sampleDist (0, 0) (sampleCoords b.1) →
        List.Sublist [a, b] out)) ∧
    performSearch sampleDist (0, 0) 3 "loc" sampleDocs =
      .ok [(⟨"a", [("loc", .obj [("geopoint", .geopoint 0.5 0)])]⟩, some 0.5),
        (⟨"b", [("loc", .obj [("geopoint", .geopoint 2 0)])]⟩, some 2)] := by
  have hres : ∀ d ∈ sampleDocs,
      recordCoords "loc" d = .ok (.num (sampleCoords d).1, .num (sampleCoords d).2) := by
    intro d hd
    simp only [sampleDocs, List.mem_cons, List.not_mem_nil, or_false] at hd
    rcases hd with h | h | h <;> subst h <;> rfl
  refine ⟨hres, performSearch_spec sampleDist (0, 0) 3 "loc" sampleCoords sampleDocs hres, ?_⟩
  simp [performSearch, jsFilterIdx, jsMapExcept, recordCoords, getGeoPoint, jsPropAccess,
    objGet, objLookup, destructureLatLng, SDoc.toVal, optLe, jsNumDist, distLe, findIndexId,
    findIndexIdAux, List.insertionSort, List.orderedInsert, sampleDocs, sampleDist,
    ok_bind, error_bind, pure_eq_ok,
    show ((0.5 : ℚ) ≤ 3 * 1.01) = True from by norm_num,
    show ((2 : ℚ) ≤ 3 * 1.01) = True from by norm_num,
    show ((10 : ℚ) ≤ 3 * 1.01) = False from by norm_num,
    show ((0.5 : ℚ) ≤ 2) = True from by norm_num]

end Geohash
